import Mathlib

/-!
Verification of the `orl` admin live-preview scripts
(`src/static/js/admin/section-item-form.js` and `src/static/js/js.js`)
against their natural-language specification.

The JavaScript is shallowly embedded: each source function becomes a Lean
function over explicit state structures.  Browser primitives that the code
delegates to (regular-expression replace, `parseFloat`, `parseInt`,
`Number.prototype.toFixed`, `Math.round`, the WHATWG `URL` constructor and
textarea-based entity decoding) are modelled faithfully for the fragment of
inputs this code exercises; each model carries a doc comment saying what it
covers.
-/

/-! ## JavaScript string primitives -/

/-- Whitespace characters recognised by JavaScript `String.prototype.trim`
and the regex class `\s` (the common members: space, tab, LF, VT, FF, CR,
NBSP).  Unicode spaces beyond NBSP are not used by this code base. -/
def isJsSpace (c : Char) : Bool :=
  c = ' ' || c = '\t' || c = '\n' || c = '\x0b' || c = '\x0c' || c = '\r' ||
    c = ' '

/-- JavaScript `String.prototype.trim` on a character list. -/
def jsTrimList (s : List Char) : List Char :=
  ((s.dropWhile isJsSpace).reverse.dropWhile isJsSpace).reverse

/-- JavaScript `String.prototype.trim`. -/
def jsTrim (s : String) : String :=
  String.mk (jsTrimList s.data)

/-- Case-insensitive character comparison, as the regex flag `i` performs
on ASCII letters. -/
def ciEq (a b : Char) : Bool :=
  a.toLower = b.toLower

/-- Does `s` start with `pat`, comparing characters case-insensitively? -/
def ciStartsWith : List Char → List Char → Bool
  | [], _ => true
  | _ :: _, [] => false
  | p :: ps, c :: cs => ciEq p c && ciStartsWith ps cs

/-- First position check of `ciStartsWith` at every suffix: does `pat`
occur case-insensitively anywhere inside `s`? -/
def ciContains (pat : List Char) : List Char → Bool
  | [] => ciStartsWith pat []
  | c :: cs => ciStartsWith pat (c :: cs) || ciContains pat cs

/-! ## The script-stripping regex

`sanitizeHtml` in both source files is
`html.replace(/<script[^>]*>.*?<\/script>/gi, '')`.
The model below follows the JavaScript regex engine:

* scanning is left to right; on a match the matched text is dropped and
  scanning resumes at the match end; otherwise one character is copied;
* `<script` is matched case-insensitively;
* `[^>]*>` consumes the (possibly empty) run of non-`>` characters and the
  closing `>`; without a `>` there is no match;
* `.*?<\/script>` matches lazily: the nearest later `</script>`
  (case-insensitive) wins, and `.` does not cross line terminators
  (`\n`, `\r`, U+2028, U+2029). -/

def scriptOpenChars : List Char := ['<', 's', 'c', 'r', 'i', 'p', 't']

def scriptCloseChars : List Char := ['<', '/', 's', 'c', 'r', 'i', 'p', 't', '>']

/-- A JavaScript regex line terminator (the characters `.` cannot match). -/
def isLineTerm (c : Char) : Bool :=
  c = '\n' || c = '\r' || c = ' ' || c = ' '

/-- Drop a case-insensitive literal pattern from the front of `s`. -/
def stripCI (pat s : List Char) : Option (List Char) :=
  if ciStartsWith pat s then some (s.drop pat.length) else none

/-- Consume `[^>]*>` : everything up to and including the first `>`. -/
def afterOpenTag : List Char → Option (List Char)
  | [] => none
  | c :: rest => if c = '>' then some rest else afterOpenTag rest

/-- Consume `.*?<\/script>` : scan (lazily) for the nearest case-insensitive
`</script>`, failing on a line terminator first.  Returns the remainder
after the close tag. -/
def findCloseScript : List Char → Option (List Char)
  | [] => none
  | c :: rest =>
    if ciStartsWith scriptCloseChars (c :: rest) then
      some ((c :: rest).drop scriptCloseChars.length)
    else if isLineTerm c then none
    else findCloseScript rest

/-- Try to match `<script[^>]*>.*?<\/script>` at the head of `s`; on success
return the remainder of the input after the match. -/
def tryMatchScript (s : List Char) : Option (List Char) :=
  (stripCI scriptOpenChars s).bind fun afterOpen =>
    (afterOpenTag afterOpen).bind findCloseScript

/-- Fuel-indexed global replace: each step either drops a whole match or
copies one character, so `s.length` fuel always suffices. -/
def sanitizeImpl : Nat → List Char → List Char
  | 0, s => s
  | _ + 1, [] => []
  | fuel + 1, c :: rest =>
    match tryMatchScript (c :: rest) with
    | some rest' => sanitizeImpl fuel rest'
    | none => c :: sanitizeImpl fuel rest

def sanitizeChars (s : List Char) : List Char :=
  sanitizeImpl s.length s

/-- `sanitizeHtml` from both source files:
`html.replace(/<script[^>]*>.*?<\/script>/gi, '')` (the `!html` guard
returns the empty string unchanged). -/
def sanitizeHtml (s : String) : String :=
  String.mk (sanitizeChars s.data)

/-! ### Length bookkeeping for the fuel -/

theorem ciStartsWith_length {pat s : List Char}
    (h : ciStartsWith pat s = true) : pat.length ≤ s.length := by
  induction pat generalizing s with
  | nil => simp
  | cons p ps ih =>
    cases s with
    | nil => simp [ciStartsWith] at h
    | cons c cs =>
      simp only [ciStartsWith, Bool.and_eq_true] at h
      simpa [List.length_cons, Nat.succ_le_succ_iff] using ih h.2

theorem stripCI_length {pat s r : List Char}
    (h : stripCI pat s = some r) : r.length = s.length - pat.length := by
  unfold stripCI at h
  by_cases hp : ciStartsWith pat s = true
  · simp [hp] at h
    subst h
    exact List.length_drop _ _
  · simp [hp] at h

theorem afterOpenTag_length {s r : List Char}
    (h : afterOpenTag s = some r) : r.length < s.length := by
  induction s with
  | nil => simp [afterOpenTag] at h
  | cons c cs ih =>
    unfold afterOpenTag at h
    by_cases hc : c = '>'
    · simp [hc] at h
      subst h
      simp
    · simp [hc] at h
      exact Nat.lt_trans (ih h) (by simp)

theorem findCloseScript_length {s r : List Char}
    (h : findCloseScript s = some r) : r.length < s.length := by
  induction s with
  | nil => simp [findCloseScript] at h
  | cons c cs ih =>
    unfold findCloseScript at h
    by_cases hp : ciStartsWith scriptCloseChars (c :: cs) = true
    · simp [hp] at h
      subst h
      rw [List.length_drop]
      simp only [scriptCloseChars, List.length_cons, List.length_nil]
      omega
    · by_cases ht : isLineTerm c = true
      · simp [hp, ht] at h
      · simp [hp, ht] at h
        exact Nat.lt_trans (ih h) (by simp)

theorem tryMatchScript_length {s r : List Char}
    (h : tryMatchScript s = some r) : r.length < s.length := by
  unfold tryMatchScript at h
  cases hstrip : stripCI scriptOpenChars s with
  | none => simp [hstrip] at h
  | some afterOpen =>
    simp only [hstrip, Option.bind_eq_bind, Option.some_bind] at h
    cases hopen : afterOpenTag afterOpen with
    | none => simp [hopen] at h
    | some afterTag =>
      simp only [hopen, Option.some_bind] at h
      have h1 : afterOpen.length = s.length - 7 := stripCI_length hstrip
      have h2 := afterOpenTag_length hopen
      have h3 := findCloseScript_length h
      have h7 : 7 ≤ s.length := by
        unfold stripCI at hstrip
        by_cases hp : ciStartsWith scriptOpenChars s = true
        · simpa [scriptOpenChars] using ciStartsWith_length hp
        · simp [hp] at hstrip
      omega

/-- Fuel irrelevance: any fuel at least the input length gives the same
result, so `sanitizeChars` is the true fixpoint of the scan. -/
theorem sanitizeImpl_congr :
    ∀ (f g : Nat) (s : List Char), s.length ≤ f → s.length ≤ g →
      sanitizeImpl f s = sanitizeImpl g s := by
  intro f
  induction f with
  | zero =>
    intro g s hf _
    have : s = [] := List.length_eq_zero.mp (Nat.le_zero.mp hf)
    subst this
    cases g <;> simp [sanitizeImpl]
  | succ f ih =>
    intro g s hf hg
    cases s with
    | nil => cases g <;> simp [sanitizeImpl]
    | cons c rest =>
      cases g with
      | zero => simp at hg
      | succ g =>
        simp only [sanitizeImpl]
        cases hm : tryMatchScript (c :: rest) with
        | some rest' =>
          have hl := tryMatchScript_length hm
          simp only [List.length_cons] at hf hg hl
          exact ih g rest' (by omega) (by omega)
        | none =>
          simp only [List.length_cons] at hf hg
          rw [ih g rest (by omega) (by omega)]

theorem sanitizeChars_eq_impl (f : Nat) (s : List Char) (h : s.length ≤ f) :
    sanitizeChars s = sanitizeImpl f s :=
  sanitizeImpl_congr s.length f s (Nat.le_refl _) h

/-- Unfolding: no match at the head copies one character. -/
theorem sanitizeChars_cons_no_match {c : Char} {rest : List Char}
    (h : tryMatchScript (c :: rest) = none) :
    sanitizeChars (c :: rest) = c :: sanitizeChars rest := by
  unfold sanitizeChars
  simp only [List.length_cons, sanitizeImpl, h]

/-- Unfolding: a match at the head drops it and continues after it. -/
theorem sanitizeChars_cons_match {c : Char} {rest rest' : List Char}
    (h : tryMatchScript (c :: rest) = some rest') :
    sanitizeChars (c :: rest) = sanitizeChars rest' := by
  unfold sanitizeChars
  simp only [List.length_cons, sanitizeImpl, h]
  have hl := tryMatchScript_length h
  exact (sanitizeImpl_congr rest'.length rest.length rest' (Nat.le_refl _)
    (by simp at hl; omega)).symm

/-! ### Where a match can start

A match of the script regex can only begin at a case-insensitive
occurrence of `<script`.  The two patterns start with `<` and contain no
other `<`, so an occurrence cannot straddle the boundary between arbitrary
text and a literal tag that follows it. -/

theorem ciStartsWith_append_left {pat x : List Char} (y : List Char)
    (h : ciStartsWith pat (x ++ y) = true) (hl : pat.length ≤ x.length) :
    ciStartsWith pat x = true := by
  induction pat generalizing x with
  | nil => simp [ciStartsWith]
  | cons p ps ih =>
    cases x with
    | nil => simp at hl
    | cons a x' =>
      simp only [List.cons_append, ciStartsWith, Bool.and_eq_true] at h ⊢
      refine ⟨h.1, ih h.2 ?_⟩
      simp only [List.length_cons] at hl
      omega

theorem ciStartsWith_mid {pat : List Char} (x y : List Char) (c : Char)
    (h : ciStartsWith pat (x ++ c :: y) = true) (hl : x.length < pat.length) :
    ciEq (pat.getD x.length 'a') c = true := by
  induction x generalizing pat with
  | nil =>
    cases pat with
    | nil => simp at hl
    | cons p ps =>
      simp only [List.nil_append, ciStartsWith, Bool.and_eq_true] at h
      simpa [List.getD] using h.1
  | cons a x' ih =>
    cases pat with
    | nil => simp at hl
    | cons p ps =>
      simp only [List.cons_append, ciStartsWith, Bool.and_eq_true] at h
      have := ih h.2 (by simp only [List.length_cons] at hl ⊢; omega)
      simpa [List.getD] using this

theorem ciStartsWith_self (s : List Char) (y : List Char) :
    ciStartsWith s (s ++ y) = true := by
  induction s with
  | nil => simp [ciStartsWith]
  | cons c cs ih => simp [ciStartsWith, ciEq, ih]

/-- No case-insensitive occurrence of `<script` can start strictly inside
text followed by a literal `<`: the overlap would put the `<` at a nonzero
index of the pattern. -/
theorem no_open_across_boundary (x y : List Char) (hx : 1 ≤ x.length)
    (hcont : ciContains scriptOpenChars x = false) :
    ciStartsWith scriptOpenChars (x ++ '<' :: y) = false := by
  by_contra hyp
  rw [Bool.not_eq_false] at hyp
  by_cases hlen : scriptOpenChars.length ≤ x.length
  · have hx0 : ciStartsWith scriptOpenChars x = true :=
      ciStartsWith_append_left _ hyp hlen
    cases x with
    | nil => simp at hx
    | cons a x' =>
      simp [ciContains, hx0] at hcont
  · have hk := ciStartsWith_mid x y '<' hyp (by omega)
    simp only [scriptOpenChars, List.length_cons, List.length_nil] at hlen
    have hrange : 1 ≤ x.length ∧ x.length ≤ 6 := by
      constructor
      · exact hx
      · simp only [scriptOpenChars] at hk ⊢
        omega
    obtain ⟨h1, h6⟩ := hrange
    interval_cases h : x.length <;> simp [scriptOpenChars, ciEq] at hk

/-- Same for `</script>`. -/
theorem no_close_across_boundary (x y : List Char) (hx : 1 ≤ x.length)
    (hcont : ciContains scriptCloseChars x = false) :
    ciStartsWith scriptCloseChars (x ++ '<' :: y) = false := by
  by_contra hyp
  rw [Bool.not_eq_false] at hyp
  by_cases hlen : scriptCloseChars.length ≤ x.length
  · have hx0 : ciStartsWith scriptCloseChars x = true :=
      ciStartsWith_append_left _ hyp hlen
    cases x with
    | nil => simp at hx
    | cons a x' =>
      simp [ciContains, hx0] at hcont
  · have hk := ciStartsWith_mid x y '<' hyp (by omega)
    simp only [scriptCloseChars, List.length_cons, List.length_nil] at hlen
    have h8 : x.length ≤ 8 := by omega
    interval_cases h : x.length <;> simp [scriptCloseChars, ciEq] at hk

/-- Scanning text that contains no case-insensitive `<script` and is
followed by a literal `<` copies that text verbatim. -/
theorem sanitizeChars_skip_clean (pre : List Char) (y : List Char)
    (hcont : ciContains scriptOpenChars pre = false) :
    sanitizeChars (pre ++ '<' :: y) = pre ++ sanitizeChars ('<' :: y) := by
  induction pre with
  | nil => simp
  | cons c pre' ih =>
    have hcont' : ciContains scriptOpenChars pre' = false := by
      simp only [ciContains, Bool.or_eq_false_iff] at hcont
      exact hcont.2
    have hstart : ciStartsWith scriptOpenChars (c :: (pre' ++ '<' :: y)) = false := by
      have := no_open_across_boundary (c :: pre') y (by simp) hcont
      simpa only [List.cons_append] using this
    have hmatch : tryMatchScript (c :: (pre' ++ '<' :: y)) = none := by
      unfold tryMatchScript stripCI
      simp [hstart]
    rw [List.cons_append, sanitizeChars_cons_no_match hmatch, ih hcont',
      List.cons_append]

/-- The lazy close-tag search finds the literal `</script>` that follows
line-terminator-free, close-tag-free body text. -/
theorem findCloseScript_of_body (body post : List Char)
    (hterm : body.all (fun c => !isLineTerm c) = true)
    (hclose : ciContains scriptCloseChars body = false) :
    findCloseScript (body ++ scriptCloseChars ++ post) = some post := by
  induction body with
  | nil =>
    simp only [List.nil_append]
    have h0 : ciStartsWith scriptCloseChars
        ('<' :: (('/' :: 's' :: 'c' :: 'r' :: 'i' :: 'p' :: 't' :: '>' :: []) ++ post)) = true := by
      have := ciStartsWith_self scriptCloseChars post
      simpa only [scriptCloseChars, List.cons_append] using this
    have hshape : scriptCloseChars ++ post =
        '<' :: (('/' :: 's' :: 'c' :: 'r' :: 'i' :: 'p' :: 't' :: '>' :: []) ++ post) := by
      simp [scriptCloseChars]
    rw [hshape]
    unfold findCloseScript
    rw [if_pos h0]
    simp [scriptCloseChars]
  | cons c body' ih =>
    have hterm' : body'.all (fun c => !isLineTerm c) = true := by
      simp only [List.all_cons, Bool.and_eq_true] at hterm
      exact hterm.2
    have hc : isLineTerm c = false := by
      simp only [List.all_cons, Bool.and_eq_true] at hterm
      simpa using hterm.1
    have hclose' : ciContains scriptCloseChars body' = false := by
      simp only [ciContains, Bool.or_eq_false_iff] at hclose
      exact hclose.2
    have hshape : (c :: body') ++ scriptCloseChars ++ post =
        (c :: body') ++ '<' :: ('/' :: 's' :: 'c' :: 'r' :: 'i' :: 'p' :: 't' :: '>' :: post) := by
      simp [scriptCloseChars]
    have hstart : ciStartsWith scriptCloseChars ((c :: body') ++ scriptCloseChars ++ post) = false := by
      rw [hshape]
      exact no_close_across_boundary (c :: body') _ (by simp) hclose
    simp only [List.cons_append] at hstart ⊢
    unfold findCloseScript
    simp only [hstart, hc, if_false]
    have := ih hterm' hclose'
    simpa only [List.append_assoc, List.cons_append] using this

/-- A literal `<script>` followed by clean body text and `</script>`
matches, and the match ends exactly at `post`. -/
theorem tryMatchScript_literal (body post : List Char)
    (hterm : body.all (fun c => !isLineTerm c) = true)
    (hclose : ciContains scriptCloseChars body = false) :
    tryMatchScript (('<' :: 's' :: 'c' :: 'r' :: 'i' :: 'p' :: 't' :: '>' :: []) ++
      body ++ scriptCloseChars ++ post) = some post := by
  unfold tryMatchScript stripCI
  have hopen : ciStartsWith scriptOpenChars
      (('<' :: 's' :: 'c' :: 'r' :: 'i' :: 'p' :: 't' :: '>' :: []) ++
        body ++ scriptCloseChars ++ post) = true := by
    simp [scriptOpenChars, ciStartsWith, ciEq]
  simp only [hopen, if_true]
  have hdrop : (((('<' :: 's' :: 'c' :: 'r' :: 'i' :: 'p' :: 't' :: '>' :: []) ++
      body ++ scriptCloseChars ++ post)).drop scriptOpenChars.length) =
      '>' :: (body ++ scriptCloseChars ++ post) := by
    simp [scriptOpenChars]
  rw [hdrop]
  unfold afterOpenTag
  simp only [if_pos rfl, Option.some_bind, Option.bind_eq_bind]
  exact findCloseScript_of_body body post hterm hclose

/-- Global script stripping: a `<script>` fragment preceded by text with no
case-insensitive `<script` occurrence, whose body has no line terminators
and no nested close tag, is removed, and scanning continues after it. -/
theorem sanitizeChars_strips_script (pre body post : List Char)
    (h1 : ciContains scriptOpenChars pre = false)
    (h2 : body.all (fun c => !isLineTerm c) = true)
    (h3 : ciContains scriptCloseChars body = false) :
    sanitizeChars (pre ++ ('<' :: 's' :: 'c' :: 'r' :: 'i' :: 'p' :: 't' :: '>' :: []) ++
      body ++ scriptCloseChars ++ post) = pre ++ sanitizeChars post := by
  have hm := tryMatchScript_literal body post h2 h3
  have hshape : ('<' :: 's' :: 'c' :: 'r' :: 'i' :: 'p' :: 't' :: '>' :: []) ++
      body ++ scriptCloseChars ++ post =
      '<' :: ('s' :: 'c' :: 'r' :: 'i' :: 'p' :: 't' :: '>' :: (body ++ scriptCloseChars ++ post)) := by
    simp
  rw [hshape] at hm
  have hmain : sanitizeChars ('<' :: ('s' :: 'c' :: 'r' :: 'i' :: 'p' :: 't' :: '>' ::
      (body ++ scriptCloseChars ++ post))) = sanitizeChars post :=
    sanitizeChars_cons_match hm
  have hskip := sanitizeChars_skip_clean pre
    ('s' :: 'c' :: 'r' :: 'i' :: 'p' :: 't' :: '>' :: (body ++ scriptCloseChars ++ post)) h1
  have hshape2 : pre ++ ('<' :: 's' :: 'c' :: 'r' :: 'i' :: 'p' :: 't' :: '>' :: []) ++
      body ++ scriptCloseChars ++ post =
      pre ++ '<' :: ('s' :: 'c' :: 'r' :: 'i' :: 'p' :: 't' :: '>' :: (body ++ scriptCloseChars ++ post)) := by
    simp
  rw [hshape2, hskip, hmain]

/-- String-level form of the stripping lemma, phrased on `sanitizeHtml`. -/
theorem sanitizeHtml_strips_script (pre body post : String)
    (h1 : ciContains scriptOpenChars pre.data = false)
    (h2 : body.data.all (fun c => !isLineTerm c) = true)
    (h3 : ciContains scriptCloseChars body.data = false) :
    sanitizeHtml (pre ++ "<script>" ++ body ++ "</script>" ++ post) =
      pre ++ sanitizeHtml post := by
  show String.mk (sanitizeChars (pre ++ "<script>" ++ body ++ "</script>" ++ post).data) = _
  have hdata : (pre ++ "<script>" ++ body ++ "</script>" ++ post).data =
      pre.data ++ ('<' :: 's' :: 'c' :: 'r' :: 'i' :: 'p' :: 't' :: '>' :: []) ++
        body.data ++ scriptCloseChars ++ post.data := by
    simp [scriptCloseChars]
  rw [hdata, sanitizeChars_strips_script pre.data body.data post.data h1 h2 h3]
  rfl

/-! ## Entity decoding

`decodeHtml` in both files decodes HTML entities by assigning to a
detached textarea's `innerHTML` and reading back `value`.  The model
decodes the named and numeric entities that occur in this code base's
data (`&amp;` `&lt;` `&gt;` `&quot;` `&#39;` `&nbsp;`); other `&`
sequences pass through unchanged, as the browser leaves unknown entities
untouched. -/

def decodeEntities : List Char → List Char
  | '&' :: 'a' :: 'm' :: 'p' :: ';' :: rest => '&' :: decodeEntities rest
  | '&' :: 'l' :: 't' :: ';' :: rest => '<' :: decodeEntities rest
  | '&' :: 'g' :: 't' :: ';' :: rest => '>' :: decodeEntities rest
  | '&' :: 'q' :: 'u' :: 'o' :: 't' :: ';' :: rest => '"' :: decodeEntities rest
  | '&' :: '#' :: '3' :: '9' :: ';' :: rest => '\'' :: decodeEntities rest
  | '&' :: 'n' :: 'b' :: 's' :: 'p' :: ';' :: rest => ' ' :: decodeEntities rest
  | c :: rest => c :: decodeEntities rest
  | [] => []

/-- `decodeHtml` from both source files (textarea-based entity decoding;
the `!html` guard returns the empty string unchanged). -/
def decodeHtml (s : String) : String :=
  String.mk (decodeEntities s.data)

/-! ## Exact decimal numbers

The numeric pipeline of the designer (`parseFloat`, `clamp`,
`Number.prototype.toFixed(2)`, `Math.round`, number-to-string) only ever
handles plain decimal literals, so numbers are modelled exactly as
`num / 10 ^ exp` instead of binary floating point; `NaN` is `Option.none`
at the call sites that test for it. -/

structure DecNum where
  num : Int
  exp : Nat
deriving DecidableEq

/-- `a < b` on decimal values (cross-multiplied). -/
def decLt (a b : DecNum) : Bool :=
  a.num * (10 : Int) ^ b.exp < b.num * (10 : Int) ^ a.exp

/-- `a ≤ b` on decimal values. -/
def decLe (a b : DecNum) : Bool :=
  a.num * (10 : Int) ^ b.exp ≤ b.num * (10 : Int) ^ a.exp

/-- `clamp(value, min, max)` from `section-item-form.js` (lines 37-48).
The `Number.isNaN` guard is handled by the callers in this model: they
test the parse result for `none` before clamping, exactly where the
source substitutes its default. -/
def clamp (value min max : DecNum) : DecNum :=
  if decLt value min then min
  else if decLt max value then max
  else value

/-- JavaScript `Math.round`: `⌊x + 1/2⌋` (ties go toward `+∞`). -/
def roundJs (d : DecNum) : Int :=
  (2 * d.num + (10 : Int) ^ d.exp) / (2 * (10 : Int) ^ d.exp)

/-- `x.toFixed(2)` as an integer count of hundredths: the nearest
`n / 100`, ties toward the larger `n` (ECMA-262 `Number.prototype.toFixed`,
computed on the exact decimal value). -/
def toFixed2Int (d : DecNum) : Int :=
  (200 * d.num + (10 : Int) ^ d.exp) / (2 * (10 : Int) ^ d.exp)

/-- Two-digit zero padding for the fraction part of `toFixed(2)`. -/
def padTwo (n : Nat) : String :=
  if n < 10 then "0" ++ toString n else toString n

/-- Render a count of hundredths the way `toFixed(2)` prints it. -/
def formatFixed2 (h : Int) : String :=
  if h < 0 then "-" ++ toString (h.natAbs / 100) ++ "." ++ padTwo (h.natAbs % 100)
  else toString (h.natAbs / 100) ++ "." ++ padTwo (h.natAbs % 100)

/-- `x.toFixed(2)` as a string. -/
def toFixed2 (d : DecNum) : String :=
  formatFixed2 (toFixed2Int d)

/-- Strip factors of ten so the decimal prints canonically. -/
def stripTens : Int → Nat → Int × Nat
  | n, 0 => (n, 0)
  | n, e + 1 => if n % 10 = 0 then stripTens (n / 10) e else (n, e + 1)

/-- JavaScript number-to-string for a decimal value: shortest decimal
notation, no trailing zeros, integers without a point (`2`, `0.5`,
`-10.2`). -/
def decToString (d : DecNum) : String :=
  let ne := stripTens d.num d.exp
  let n := ne.1
  let e := ne.2
  if e = 0 then toString n
  else
    let sign := if n < 0 then "-" else ""
    let digits := toString n.natAbs
    let padded :=
      if digits.length ≤ e then String.mk (List.replicate (e + 1 - digits.length) '0') ++ digits
      else digits
    sign ++ padded.take (padded.length - e) ++ "." ++ padded.drop (padded.length - e)

/-- Digit run to a natural number, most significant first. -/
def digitsToNat (ds : List Char) : Nat :=
  ds.foldl (fun a c => 10 * a + (c.toNat - '0'.toNat)) 0

/-- JavaScript `parseFloat` for plain decimal notation: leading whitespace,
optional sign, integer digits, optional `.` and fraction digits; trailing
garbage is ignored; no digits at all is `NaN` (`none`).  Exponents and
`Infinity` are not modelled (never produced or stored by this code). -/
def parseFloatJs (s : String) : Option DecNum :=
  let cs := s.data.dropWhile isJsSpace
  let signAndRest : Int × List Char :=
    match cs with
    | '-' :: r => (-1, r)
    | '+' :: r => (1, r)
    | _ => (1, cs)
  let sign := signAndRest.1
  let cs1 := signAndRest.2
  let ipart := cs1.takeWhile Char.isDigit
  let rest1 := cs1.dropWhile Char.isDigit
  let fpart : List Char :=
    match rest1 with
    | '.' :: r => r.takeWhile Char.isDigit
    | _ => []
  if ipart.isEmpty && fpart.isEmpty then none
  else some ⟨sign * (digitsToNat (ipart ++ fpart) : Int), fpart.length⟩

/-- JavaScript `parseInt(s, 10)`: leading whitespace, optional sign,
leading decimal digits; no digits is `NaN` (`none`). -/
def parseIntJs (s : String) : Option Int :=
  let cs := s.data.dropWhile isJsSpace
  let signAndRest : Int × List Char :=
    match cs with
    | '-' :: r => (-1, r)
    | '+' :: r => (1, r)
    | _ => (1, cs)
  let ds := signAndRest.2.takeWhile Char.isDigit
  if ds.isEmpty then none else some (signAndRest.1 * digitsToNat ds)

def IMAGE_SCALE_MIN : DecNum := ⟨5, 1⟩
def IMAGE_SCALE_MAX : DecNum := ⟨2, 0⟩
def IMAGE_ROTATION_MIN : DecNum := ⟨-180, 0⟩
def IMAGE_ROTATION_MAX : DecNum := ⟨180, 0⟩

/-! ### Round trips and bounds for the numeric pipeline -/

set_option maxRecDepth 100000 in
theorem parseFloat_formatFixed2_mem :
    ∀ h ∈ Finset.Icc (50 : ℤ) 200, parseFloatJs (formatFixed2 h) = some ⟨h, 2⟩ := by
  decide

set_option maxRecDepth 100000 in
theorem parseFloat_intString_mem :
    ∀ r ∈ Finset.Icc (-180 : ℤ) 180, parseFloatJs (toString r) = some ⟨r, 0⟩ := by
  decide

theorem parseFloat_formatFixed2 {h : Int} (h1 : 50 ≤ h) (h2 : h ≤ 200) :
    parseFloatJs (formatFixed2 h) = some ⟨h, 2⟩ :=
  parseFloat_formatFixed2_mem h (Finset.mem_Icc.mpr ⟨h1, h2⟩)

theorem parseFloat_intString {r : Int} (h1 : -180 ≤ r) (h2 : r ≤ 180) :
    parseFloatJs (toString r) = some ⟨r, 0⟩ :=
  parseFloat_intString_mem r (Finset.mem_Icc.mpr ⟨h1, h2⟩)

theorem toFixed2Int_hundredths (h : Int) : toFixed2Int ⟨h, 2⟩ = h := by
  unfold toFixed2Int
  norm_num
  omega

theorem roundJs_int (r : Int) : roundJs ⟨r, 0⟩ = r := by
  unfold roundJs
  norm_num
  omega

theorem clamp_of_inrange {q mn mx : DecNum}
    (h1 : decLe mn q = true) (h2 : decLe q mx = true) : clamp q mn mx = q := by
  simp only [decLe, decide_eq_true_eq] at h1 h2
  unfold clamp
  rw [if_neg, if_neg]
  · simp only [decLt, decide_eq_true_eq]
    exact Int.not_lt.mpr h2
  · simp only [decLt, decide_eq_true_eq]
    exact Int.not_lt.mpr h1

theorem decLe_refl (a : DecNum) : decLe a a = true := by
  simp [decLe]

theorem clamp_bounds {q mn mx : DecNum} (hmm : decLe mn mx = true) :
    decLe mn (clamp q mn mx) = true ∧ decLe (clamp q mn mx) mx = true := by
  unfold clamp
  by_cases h1 : decLt q mn = true
  · simp only [h1, if_true]
    exact ⟨decLe_refl mn, hmm⟩
  · simp only [h1, if_false]
    by_cases h2 : decLt mx q = true
    · simp only [h2, if_true]
      exact ⟨hmm, decLe_refl mx⟩
    · simp only [h2, if_false]
      rw [Bool.not_eq_true] at h1 h2
      simp only [decLt, decide_eq_false_iff_not, Int.not_lt] at h1 h2
      simp only [decLe, decide_eq_true_eq]
      exact ⟨h1, h2⟩

theorem toFixed2Int_scale_bounds {q : DecNum}
    (h1 : decLe IMAGE_SCALE_MIN q = true) (h2 : decLe q IMAGE_SCALE_MAX = true) :
    50 ≤ toFixed2Int q ∧ toFixed2Int q ≤ 200 := by
  simp only [decLe, IMAGE_SCALE_MIN, IMAGE_SCALE_MAX, decide_eq_true_eq] at h1 h2
  norm_num at h1 h2
  have hP : (0 : ℤ) < 10 ^ q.exp := pow_pos (by norm_num) _
  unfold toFixed2Int
  constructor
  · rw [Int.le_ediv_iff_mul_le (by positivity)]
    linarith
  · by_contra hc
    push_neg at hc
    have : (201 : ℤ) ≤ (200 * q.num + 10 ^ q.exp) / (2 * 10 ^ q.exp) := hc
    rw [Int.le_ediv_iff_mul_le (by positivity)] at this
    linarith

theorem roundJs_rotation_bounds {q : DecNum}
    (h1 : decLe IMAGE_ROTATION_MIN q = true) (h2 : decLe q IMAGE_ROTATION_MAX = true) :
    -180 ≤ roundJs q ∧ roundJs q ≤ 180 := by
  simp only [decLe, IMAGE_ROTATION_MIN, IMAGE_ROTATION_MAX, decide_eq_true_eq] at h1 h2
  norm_num at h1 h2
  have hP : (0 : ℤ) < 10 ^ q.exp := pow_pos (by norm_num) _
  unfold roundJs
  constructor
  · rw [Int.le_ediv_iff_mul_le (by positivity)]
    linarith
  · by_contra hc
    push_neg at hc
    have : (181 : ℤ) ≤ (2 * q.num + 10 ^ q.exp) / (2 * 10 ^ q.exp) := hc
    rw [Int.le_ediv_iff_mul_le (by positivity)] at this
    linarith

/-! ## URL normalization

`normalizeUrl` delegates to the WHATWG `new URL(value, window.location.origin)`.
The model covers the cases this data exercises: absolute `http`/`https`
URLs, protocol-relative (`//host`), and relative references (path, query,
fragment) resolved against an origin whose path is `/`.  Space is the one
path/query/fragment character this data contains that the serializer
percent-encodes; dot-segment normalization, ports, userinfo and exotic
schemes are outside the model's scope.  Note that a relative reference
containing spaces still parses (spaces become `%20`); with a valid base
the constructor only throws for inputs such as `https://` whose host is
empty. -/

def pageOrigin : String := "https://example.org"

def isSchemeChar (c : Char) : Bool :=
  c.isAlphanum || c = '+' || c = '-' || c = '.'

/-- Split a leading `scheme:` off a URL string, if present. -/
def splitScheme (cs : List Char) : Option (List Char × List Char) :=
  match cs with
  | [] => none
  | c :: rest =>
    if c.isAlpha then
      let body := rest.takeWhile isSchemeChar
      match rest.drop body.length with
      | ':' :: tail => some (c :: body, tail)
      | _ => none
    else none

/-- Percent-encode the characters the WHATWG serializer escapes that occur
in this data (space). -/
def encodeUrlChars : List Char → List Char
  | [] => []
  | ' ' :: r => '%' :: '2' :: '0' :: encodeUrlChars r
  | c :: r => c :: encodeUrlChars r

/-- Serialize a path-query-fragment tail: split at the first `#` into
fragment, then at the first `?` into query; force a leading `/` on the
path. -/
def serializeTail (cs : List Char) : String :=
  let beforeFrag := cs.takeWhile (fun c => c ≠ '#')
  let fragPart := cs.drop beforeFrag.length
  let path := beforeFrag.takeWhile (fun c => c ≠ '?')
  let queryPart := beforeFrag.drop path.length
  let absPath : List Char := if path.head? = some '/' then path else '/' :: path
  String.mk (encodeUrlChars absPath) ++
    String.mk (encodeUrlChars queryPart) ++
    String.mk (encodeUrlChars fragPart)

/-- Resolve a host-and-tail chunk (`host/path?query#frag`) under a scheme;
fails on an empty or space-containing host, as the URL constructor throws
there. -/
def resolveHostTail (scheme : String) (hostAndPath : List Char) : Option String :=
  let host := hostAndPath.takeWhile (fun c => c ≠ '/' && c ≠ '?' && c ≠ '#')
  let tail := hostAndPath.drop host.length
  if host.isEmpty || host.any isJsSpace then none
  else some (scheme ++ "://" ++ String.mk (host.map Char.toLower) ++
    (if tail.isEmpty then "" else serializeTail tail))

/-- `new URL(value, origin).href`, for the modelled fragment. -/
def resolveUrl (value : String) (origin : String) : Option String :=
  match splitScheme value.data with
  | some (scheme, rest) =>
    let schemeStr := String.mk (scheme.map Char.toLower)
    if schemeStr = "http" || schemeStr = "https" then
      match rest with
      | '/' :: '/' :: hostAndPath => resolveHostTail schemeStr hostAndPath
      | _ => none
    else some value
  | none =>
    match value.data with
    | '/' :: '/' :: hostAndPath =>
      let originScheme := String.mk (origin.data.takeWhile (fun c => c ≠ ':'))
      resolveHostTail originScheme hostAndPath
    | cs => some (origin ++ serializeTail cs)

/-- `normalizeUrl` from `section-item-form.js` (lines 50-61): empty input
gives `"#"`, a parse failure passes the raw string through. -/
def normalizeUrl (value : String) : String :=
  if value = "" then "#"
  else
    match resolveUrl value pageOrigin with
    | some href => href
    | none => value

/-! ## The designer preview state

State of `updatePreview` in `section-item-form.js` (lines 175-350): the
field controls (absent controls are `none`), the preview DOM nodes the
factory resolves (the preview root's full markup, as shipped), and the
bound rich-text editor's content when an instance exists for the summary
field. -/

structure Fields where
  title : Option String
  summary : Option String
  badge : Option String
  displayDate : Option String
  linkLabel : Option String
  linkUrl : Option String
  imageUrl : Option String
  imageScale : Option String
  imageRotation : Option String
deriving DecidableEq

structure PreviewNodes where
  titleText : String
  titlePlaceholder : Bool
  summaryHtml : String
  summaryPlaceholder : Bool
  badgeText : String
  badgePlaceholder : Bool
  dateText : String
  datePlaceholder : Bool
  linkLabelText : String
  linkHref : String
  linkPlaceholder : Bool
  imageSrc : Option String
  imageAlt : String
  imageHidden : Bool
  wrapperHasImage : Bool
  imageEmptyHidden : Bool
  imageTransform : String
  controlsHidden : Bool
  scaleControlValue : String
  scaleControlDisabled : Bool
  scaleValueText : String
  rotationControlValue : String
  rotationControlDisabled : Bool
  rotationValueText : String
  resetDisabled : Bool
deriving DecidableEq

structure PreviewState where
  fields : Fields
  nodes : PreviewNodes
  editorData : Option String
deriving DecidableEq

def defaultTitle : String := "Título do cartão"
def defaultSummary : String :=
  "<p>Utilize o campo “Resumo” para adicionar o conteúdo que aparecerá no site.</p>"
def defaultLink : String := "Adicionar link"
def defaultBadge : String := "Adicionar selo"
def defaultDate : String := "Definir data"

/-- `title = fields.title && fields.title.value.trim()` — the trimmed
value of an optional control, empty when absent. -/
def trimmedField (f : Option String) : String :=
  match f with
  | none => ""
  | some v => jsTrim v

/-- `parseScale` (lines 201-207): `parseFloat` of the scale field, `1` on
`NaN`, clamped to `[0.5, 2]`. -/
def parseScale (f : Fields) : DecNum :=
  match f.imageScale with
  | none => ⟨1, 0⟩
  | some v =>
    match parseFloatJs v with
    | none => ⟨1, 0⟩
    | some q => clamp q IMAGE_SCALE_MIN IMAGE_SCALE_MAX

/-- `parseRotation` (lines 209-215): `parseFloat` of the rotation field,
`0` on `NaN`, clamped to `[-180, 180]`. -/
def parseRotation (f : Fields) : DecNum :=
  match f.imageRotation with
  | none => ⟨0, 0⟩
  | some v =>
    match parseFloatJs v with
    | none => ⟨0, 0⟩
    | some q => clamp q IMAGE_ROTATION_MIN IMAGE_ROTATION_MAX

/-- `formatScale` (lines 217-219): `Math.round(scale * 100)`. -/
def formatScale (scale : DecNum) : Int :=
  roundJs ⟨100 * scale.num, scale.exp⟩

/-- Raw summary markup: the bound editor's `getData()` if an instance
exists, else the summary control's value, else the empty string. -/
def rawSummaryF (f : Fields) (editorData : Option String) : String :=
  match f.summary, editorData with
  | some _, some d => d
  | some v, none => v
  | none, _ => ""

def rawSummary (st : PreviewState) : String :=
  rawSummaryF st.fields st.editorData

/-- The summary content the renderer computes before the placeholder
fallback: `sanitizeHtml(decodeHtml(raw)).trim()`. -/
def summaryContentF (f : Fields) (editorData : Option String) : String :=
  jsTrim (sanitizeHtml (decodeHtml (rawSummaryF f editorData)))

def summaryContent (st : PreviewState) : String :=
  summaryContentF st.fields st.editorData

/-- The field normalization `updatePreview` performs (lines 264-276):
write `scale.toFixed(2)` and `String(Math.round(rotation))` back into the
scale and rotation controls when they exist. -/
def normFields (f : Fields) : Fields :=
  { f with
    imageScale := f.imageScale.map fun _ => toFixed2 (parseScale f)
    imageRotation := f.imageRotation.map fun _ => toString (roundJs (parseRotation f)) }

/-- The node writes `updatePreview` performs (lines 278-348).  Every node
is written from the current field values; the image `alt` is the only
node attribute left untouched on the no-image branch. -/
def renderNodes (f : Fields) (editorData : Option String) (n : PreviewNodes) :
    PreviewNodes :=
  let title := trimmedField f.title
  let badge := trimmedField f.badge
  let date := trimmedField f.displayDate
  let linkLabel := trimmedField f.linkLabel
  let linkUrl := trimmedField f.linkUrl
  let imageUrl := trimmedField f.imageUrl
  let scale := parseScale f
  let rotation := parseRotation f
  let hasImage : Bool := imageUrl ≠ ""
  let content := summaryContentF f editorData
  let displayedTitle := if title ≠ "" then title else defaultTitle
  { n with
    titleText := displayedTitle
    titlePlaceholder := title = ""
    summaryHtml := if content ≠ "" then content else defaultSummary
    summaryPlaceholder := content = ""
    imageSrc := if hasImage then some imageUrl else none
    imageAlt := if hasImage then displayedTitle else n.imageAlt
    imageHidden := !hasImage
    wrapperHasImage := hasImage
    imageEmptyHidden := hasImage
    imageTransform :=
      if hasImage then
        "scale(" ++ decToString scale ++ ") rotate(" ++ decToString rotation ++ "deg)"
      else ""
    badgeText := if badge ≠ "" then badge else defaultBadge
    badgePlaceholder := badge = ""
    dateText := if date ≠ "" then date else defaultDate
    datePlaceholder := date = ""
    linkLabelText := if linkLabel ≠ "" then linkLabel else defaultLink
    linkHref := if linkLabel ≠ "" then normalizeUrl linkUrl else "#"
    linkPlaceholder := linkLabel = ""
    controlsHidden := !hasImage
    scaleControlValue := toString (formatScale scale)
    scaleControlDisabled := !hasImage
    scaleValueText := toString (formatScale scale) ++ "%"
    rotationControlValue := toString (roundJs rotation)
    rotationControlDisabled := !hasImage
    rotationValueText := toString (roundJs rotation) ++ "°"
    resetDisabled := !hasImage }

/-- `updatePreview` from `section-item-form.js` (lines 253-349), as a state
transformer: read the field values (and editor content), normalize the
scale/rotation fields in place, and write the preview nodes. -/
def updatePreview (st : PreviewState) : PreviewState :=
  { fields := normFields st.fields
    nodes := renderNodes st.fields st.editorData st.nodes
    editorData := st.editorData }

/-- The scale control's `input` handler (lines 674-689): `parseInt` the
control value, divide by 100, default `1` on `NaN`, clamp, store
`toFixed(2)` if changed, re-render.  The handler is only attached when the
scale field control exists. -/
def scaleInputHandler (controlValue : String) (st : PreviewState) : PreviewState :=
  let normalized : DecNum :=
    match parseIntJs controlValue with
    | none => ⟨1, 0⟩
    | some p => clamp ⟨p, 2⟩ IMAGE_SCALE_MIN IMAGE_SCALE_MAX
  let formatted := toFixed2 normalized
  let st' := { st with fields := { st.fields with imageScale := some formatted } }
  updatePreview st'

/-- The rotation control's `input` handler (lines 691-703): `parseInt`,
default `0` on `NaN`, clamp, store `String(Math.round(...))` if changed,
re-render. -/
def rotationInputHandler (controlValue : String) (st : PreviewState) : PreviewState :=
  let normalized : DecNum :=
    match parseIntJs controlValue with
    | none => ⟨0, 0⟩
    | some d => clamp ⟨d, 0⟩ IMAGE_ROTATION_MIN IMAGE_ROTATION_MAX
  let formatted := toString (roundJs normalized)
  let st' := { st with fields := { st.fields with imageRotation := some formatted } }
  updatePreview st'

/-- A preview whose nodes are all blank, for concrete evaluations. -/
def blankNodes : PreviewNodes :=
  ⟨"", false, "", false, "", false, "", false, "", "", false, none, "", false,
    false, false, "", false, "", false, "", "", false, "", false⟩

/-- A field set with every control absent, for concrete evaluations. -/
def blankFields : Fields :=
  ⟨none, none, none, none, none, none, none, none, none⟩

/-! ### Rendering twice: the second call still rewrites, the third does not -/

theorem parseScale_bounds (f : Fields) :
    decLe IMAGE_SCALE_MIN (parseScale f) = true ∧
      decLe (parseScale f) IMAGE_SCALE_MAX = true := by
  rcases hv : f.imageScale with _ | v
  · simp only [parseScale, hv]
    exact ⟨by decide, by decide⟩
  · rcases hp : parseFloatJs v with _ | q
    · simp only [parseScale, hv, hp]
      exact ⟨by decide, by decide⟩
    · simp only [parseScale, hv, hp]
      exact clamp_bounds (by decide)

theorem parseRotation_bounds (f : Fields) :
    decLe IMAGE_ROTATION_MIN (parseRotation f) = true ∧
      decLe (parseRotation f) IMAGE_ROTATION_MAX = true := by
  rcases hv : f.imageRotation with _ | v
  · simp only [parseRotation, hv]
    exact ⟨by decide, by decide⟩
  · rcases hp : parseFloatJs v with _ | q
    · simp only [parseRotation, hv, hp]
      exact ⟨by decide, by decide⟩
    · simp only [parseRotation, hv, hp]
      exact clamp_bounds (by decide)

theorem parseScale_normFields (f : Fields) (v : String)
    (hv : f.imageScale = some v) :
    parseScale (normFields f) = ⟨toFixed2Int (parseScale f), 2⟩ := by
  have hb := parseScale_bounds f
  obtain ⟨hI1, hI2⟩ := toFixed2Int_scale_bounds hb.1 hb.2
  have h1 : (normFields f).imageScale = some (formatFixed2 (toFixed2Int (parseScale f))) := by
    simp [normFields, hv, toFixed2]
  set s := parseScale f with hs
  simp only [parseScale, h1, parseFloat_formatFixed2 hI1 hI2]
  refine clamp_of_inrange ?_ ?_
  · simp only [decLe, IMAGE_SCALE_MIN, decide_eq_true_eq]
    norm_num
    omega
  · simp only [decLe, IMAGE_SCALE_MAX, decide_eq_true_eq]
    norm_num
    omega

theorem parseRotation_normFields (f : Fields) (v : String)
    (hv : f.imageRotation = some v) :
    parseRotation (normFields f) = ⟨roundJs (parseRotation f), 0⟩ := by
  have hb := parseRotation_bounds f
  obtain ⟨hI1, hI2⟩ := roundJs_rotation_bounds hb.1 hb.2
  have h1 : (normFields f).imageRotation = some (toString (roundJs (parseRotation f))) := by
    simp [normFields, hv]
  set s := parseRotation f with hs
  simp only [parseRotation, h1, parseFloat_intString hI1 hI2]
  refine clamp_of_inrange ?_ ?_
  · simp only [decLe, IMAGE_ROTATION_MIN, decide_eq_true_eq]
    norm_num
    omega
  · simp only [decLe, IMAGE_ROTATION_MAX, decide_eq_true_eq]
    norm_num
    omega

theorem toFixed2_stable (f : Fields) :
    toFixed2 (parseScale (normFields f)) = toFixed2 (parseScale f) := by
  cases hv : f.imageScale with
  | none =>
    have h1 : (normFields f).imageScale = none := by simp [normFields, hv]
    simp only [parseScale, h1, hv]
  | some v =>
    rw [parseScale_normFields f v hv]
    unfold toFixed2
    rw [toFixed2Int_hundredths]

theorem rotString_stable (f : Fields) :
    toString (roundJs (parseRotation (normFields f))) =
      toString (roundJs (parseRotation f)) := by
  cases hv : f.imageRotation with
  | none =>
    have h1 : (normFields f).imageRotation = none := by simp [normFields, hv]
    simp only [parseRotation, h1, hv]
  | some v =>
    rw [parseRotation_normFields f v hv, roundJs_int]

theorem normFields_idem (f : Fields) : normFields (normFields f) = normFields f := by
  have hs : (normFields f).imageScale.map
      (fun _ => toFixed2 (parseScale (normFields f))) = (normFields f).imageScale := by
    cases hv : f.imageScale with
    | none => simp [normFields, hv]
    | some v =>
      have h1 : (normFields f).imageScale = some (toFixed2 (parseScale f)) := by
        simp [normFields, hv]
      rw [h1]
      simp [toFixed2_stable]
  have hr : (normFields f).imageRotation.map
      (fun _ => toString (roundJs (parseRotation (normFields f)))) =
      (normFields f).imageRotation := by
    cases hv : f.imageRotation with
    | none => simp [normFields, hv]
    | some v =>
      have h1 : (normFields f).imageRotation =
          some (toString (roundJs (parseRotation f))) := by
        simp [normFields, hv]
      rw [h1]
      simp [rotString_stable]
  conv_lhs => rw [normFields]
  rw [hs, hr]

theorem renderNodes_stable (f : Fields) (e : Option String) (m : PreviewNodes) :
    renderNodes f e (renderNodes f e m) = renderNodes f e m := by
  unfold renderNodes
  by_cases h : trimmedField f.imageUrl = "" <;> simp [h]

theorem updatePreview_settles (st : PreviewState) :
    updatePreview (updatePreview (updatePreview st)) =
      updatePreview (updatePreview st) := by
  unfold updatePreview
  simp only [normFields_idem, renderNodes_stable]

/-! ## The editable preview (js.js)

`setEditableContent` writes a preview node's content unless the user is
typing in it.  In the model `content` stands for the node's `innerHTML`
on the HTML configuration and `textContent` otherwise (the source's two
branches differ only in which DOM property carries the content);
`isActive` models `document.activeElement === element`; `syncing` models
`element.dataset.syncing === '1'`. -/

structure ElemState where
  content : String
  placeholderFlag : Bool
  syncing : Bool
deriving DecidableEq

/-- `setEditableContent` from `js.js` (lines 302-329). -/
def setEditableContent (el : ElemState) (isActive : Bool)
    (value placeholder : String) : ElemState :=
  let hasValue : Bool := value ≠ ""
  let displayValue := if hasValue then value else placeholder
  { content := if !isActive || el.syncing then displayValue else el.content
    placeholderFlag := !hasValue
    syncing := false }

/-- `replace(/\s+/g, ' ')`: collapse runs of whitespace to single spaces.
The flag tracks whether the previous character was part of a run. -/
def collapseWsAux : Bool → List Char → List Char
  | _, [] => []
  | prevSpace, c :: rest =>
    if isJsSpace c then
      if prevSpace then collapseWsAux true rest
      else ' ' :: collapseWsAux true rest
    else c :: collapseWsAux false rest

def collapseWs (s : String) : String :=
  String.mk (collapseWsAux false s.data)

/-- `normaliseValue` from `js.js` (lines 471-486) for a binding with the
given configuration: replace NBSP by regular spaces, then sanitize-trim
(HTML), plain trim (multiline), or collapse-trim. -/
def normaliseValue (isHtml multiline : Bool) (value : String) : String :=
  if value = "" then ""
  else
    let cleaned := String.mk (value.data.map fun c => if c = ' ' then ' ' else c)
    if isHtml then jsTrim (sanitizeHtml cleaned)
    else if multiline then jsTrim cleaned
    else jsTrim (collapseWs cleaned)

structure SyncResult where
  fieldValue : String
  editorData : Option String
  syncingSet : Bool
  inputDispatched : Bool
  changeDispatched : Bool
  rerendered : Bool
deriving DecidableEq

/-- `syncFieldFromPreview` from `js.js` (lines 488-529) for one binding.
`elemContent` is the edited node's `innerHTML` (HTML config) or
`textContent`; `fieldValue` the backing field's current value; `editor`
the bound rich-text instance's data when one exists (consulted only on
the HTML path, as in the source).  `rerendered` records the direct
`updatePreview()` call of the editor path. -/
def syncFieldFromPreview (isHtml multiline : Bool)
    (elemContent fieldValue : String) (editor : Option String) : SyncResult :=
  if isHtml then
    let newValue := normaliseValue true multiline elemContent
    match editor with
    | some data =>
      if jsTrim (sanitizeHtml data) ≠ newValue then
        { fieldValue := fieldValue, editorData := some newValue, syncingSet := true
          inputDispatched := false, changeDispatched := false, rerendered := true }
      else
        { fieldValue := fieldValue, editorData := some data, syncingSet := true
          inputDispatched := false, changeDispatched := false, rerendered := true }
    | none =>
      if jsTrim (sanitizeHtml fieldValue) ≠ newValue then
        { fieldValue := newValue, editorData := none, syncingSet := false
          inputDispatched := true, changeDispatched := true, rerendered := false }
      else
        { fieldValue := fieldValue, editorData := none, syncingSet := false
          inputDispatched := true, changeDispatched := false, rerendered := false }
  else
    let newValue := normaliseValue false multiline elemContent
    if fieldValue ≠ newValue then
      { fieldValue := newValue, editorData := editor, syncingSet := false
        inputDispatched := true, changeDispatched := true, rerendered := false }
    else
      { fieldValue := fieldValue, editorData := editor, syncingSet := false
        inputDispatched := true, changeDispatched := false, rerendered := false }

/-! ## The upload controller -/

structure UploadErrorBody where
  message : Option String
deriving DecidableEq

structure UploadData where
  uploaded : Option Int
  url : Option String
  error : Option UploadErrorBody
deriving DecidableEq

/-- The `{}` that a JSON parse failure is replaced by. -/
def emptyUploadData : UploadData := ⟨none, none, none⟩

structure FetchResponse where
  status : Nat
  body : Option UploadData
deriving DecidableEq

/-- `response.ok`: HTTP status in the 2xx range. -/
def respOk (r : FetchResponse) : Bool :=
  200 ≤ r.status && r.status ≤ 299

inductive FetchOutcome
  | response (r : FetchResponse)
  | networkError
deriving DecidableEq

def uploadSuccessMsg : String := "Imagem enviada com sucesso."
def uploadFailMsg : String := "Não foi possível enviar a imagem. Tente novamente."
def uploadConnErrorMsg : String := "Erro de conexão ao enviar a imagem."

/-- `data.url` is truthy: present and non-empty. -/
def urlTruthy (d : UploadData) : Bool :=
  match d.url with
  | some u => u ≠ ""
  | none => false

/-- `data && data.error && data.error.message` as a truthy string. -/
def serverMessage (d : UploadData) : Option String :=
  match d.error with
  | some e =>
    match e.message with
    | some m => if m ≠ "" then some m else none
    | none => none
  | none => none

structure UploadResult where
  fieldValue : String
  inputDispatched : Bool
  changeDispatched : Bool
  feedbackStatus : Option String
  feedbackMessage : String
  busy : Bool
  startsNewUpload : Bool
deriving DecidableEq

/-- The `uploadFile` completion pipeline from `section-item-form.js`
(lines 542-573): the `then` handler turns the response into
`{ok, status, data}` with a parse failure yielding `{}`; the second `then`
either commits the URL and notifies, or shows the failure message; the
`catch` shows the connection error; the `finally` clears the busy state.
The model starts from the field's value at completion time and returns
the DOM effects; no branch issues another request. -/
def processUploadResponse (fieldValue : String) (o : FetchOutcome) : UploadResult :=
  match o with
  | .networkError =>
    { fieldValue := fieldValue, inputDispatched := false, changeDispatched := false
      feedbackStatus := some "error", feedbackMessage := uploadConnErrorMsg
      busy := false, startsNewUpload := false }
  | .response r =>
    let data := r.body.getD emptyUploadData
    if respOk r = true ∧ data.uploaded = some 1 ∧ urlTruthy data = true then
      { fieldValue := data.url.getD "", inputDispatched := true, changeDispatched := true
        feedbackStatus := some "success", feedbackMessage := uploadSuccessMsg
        busy := false, startsNewUpload := false }
    else
      { fieldValue := fieldValue, inputDispatched := false, changeDispatched := false
        feedbackStatus := some "error"
        feedbackMessage := (serverMessage data).getD uploadFailMsg
        busy := false, startsNewUpload := false }

/-! ## Upload binding (endpoint configuration) -/

/-- A truthiness filter: `undefined`/empty-string configuration reads as
absent. -/
def truthyOpt (o : Option String) : Option String :=
  match o with
  | some s => if s ≠ "" then some s else none
  | none => none

/-- `getUploadEndpoint` (lines 375-380): the field's
`data-card-image-endpoint` attribute when truthy, else
`window.__orlImageUploadEndpoint || null`. -/
def getUploadEndpoint (fieldEndpoint globalEndpoint : Option String) : Option String :=
  match truthyOpt fieldEndpoint with
  | some s => some s
  | none => truthyOpt globalEndpoint

def configUnavailableMsg : String :=
  "Envio direto de imagens indisponível. Informe um endereço completo da imagem ou contate o suporte para habilitar o recurso."

structure UploadBinding where
  bound : Bool
  feedbackMessage : Option String
  feedbackStatus : Option String
  uploadEnabled : Bool
deriving DecidableEq

/-- The endpoint decision of `setupImageUpload` (lines 441-463), with the
wrapper present: without an endpoint the controller writes the
configuration-failure feedback, marks the field bound, and attaches none
of the upload entry points; otherwise it builds the controls and attaches
them. -/
def setupImageUpload (fieldEndpoint globalEndpoint : Option String) : UploadBinding :=
  match getUploadEndpoint fieldEndpoint globalEndpoint with
  | none => ⟨true, some configUnavailableMsg, some "error", false⟩
  | some _ => ⟨true, none, none, true⟩

inductive UploadEvent
  | filePicked
  | pasteWithFiles
  | dropWithFiles
deriving DecidableEq

/-- One step of the upload controller's visible state: an entry-point
event starts an upload only when the binding attached the handlers. -/
def uploadStep (b : UploadBinding) (uploading : Bool) (_ : UploadEvent) : Bool :=
  if b.uploadEnabled then true else uploading

/-- Does any event sequence drive the controller into the `Uploading`
state? -/
def reachesUploading (b : UploadBinding) (events : List UploadEvent) : Bool :=
  events.foldl (uploadStep b) false

/-! ### Helper lemmas for the claims -/

theorem updatePreview_idem_of_normal (st : PreviewState)
    (h : normFields st.fields = st.fields) :
    updatePreview (updatePreview st) = updatePreview st := by
  unfold updatePreview
  simp only
  rw [h, h, renderNodes_stable]

/-- The two-decimal clamped form the scale field always holds after a
render. -/
def scaleNormalized (v : String) : Prop :=
  ∃ h : Int, 50 ≤ h ∧ h ≤ 200 ∧ v = formatFixed2 h

/-- The integer clamped form the rotation field always holds after a
render. -/
def rotationNormalized (v : String) : Prop :=
  ∃ r : Int, -180 ≤ r ∧ r ≤ 180 ∧ v = toString r

theorem updatePreview_scale_normalized (st : PreviewState) (v : String)
    (hv : (updatePreview st).fields.imageScale = some v) : scaleNormalized v := by
  have heq : (updatePreview st).fields.imageScale =
      st.fields.imageScale.map fun _ => toFixed2 (parseScale st.fields) := rfl
  rw [heq] at hv
  cases hf : st.fields.imageScale with
  | none => rw [hf] at hv; simp at hv
  | some w =>
    rw [hf] at hv
    simp only [Option.map_some', Option.some.injEq] at hv
    have hb := parseScale_bounds st.fields
    obtain ⟨h1, h2⟩ := toFixed2Int_scale_bounds hb.1 hb.2
    exact ⟨toFixed2Int (parseScale st.fields), h1, h2, hv.symm⟩

theorem updatePreview_rotation_normalized (st : PreviewState) (v : String)
    (hv : (updatePreview st).fields.imageRotation = some v) : rotationNormalized v := by
  have heq : (updatePreview st).fields.imageRotation =
      st.fields.imageRotation.map fun _ => toString (roundJs (parseRotation st.fields)) := rfl
  rw [heq] at hv
  cases hf : st.fields.imageRotation with
  | none => rw [hf] at hv; simp at hv
  | some w =>
    rw [hf] at hv
    simp only [Option.map_some', Option.some.injEq] at hv
    have hb := parseRotation_bounds st.fields
    obtain ⟨h1, h2⟩ := roundJs_rotation_bounds hb.1 hb.2
    exact ⟨roundJs (parseRotation st.fields), h1, h2, hv.symm⟩

theorem reachesUploading_disabled (b : UploadBinding)
    (h : b.uploadEnabled = false) :
    ∀ events : List UploadEvent, reachesUploading b events = false := by
  intro events
  unfold reachesUploading
  have step_id : ∀ (u : Bool) (e : UploadEvent), uploadStep b u e = u := by
    intro u e
    unfold uploadStep
    rw [h]
    simp
  induction events with
  | nil => rfl
  | cons e rest ih =>
    rw [List.foldl_cons, step_id]
    exact ih

/-! ## The claims -/

def summaryDemoState : PreviewState :=
  { fields := { blankFields with summary := some "<p>ok</p><script>alert(1)</script>" }
    nodes := blankNodes
    editorData := none }

def renderTwiceState : PreviewState :=
  { fields := { blankFields with
      imageUrl := some "x.png", imageScale := some "1.00", imageRotation := some "10.2" }
    nodes := blankNodes
    editorData := none }

def scaleDemoState : PreviewState :=
  { fields := { blankFields with
      imageUrl := some "x.png", imageScale := some "1.00", imageRotation := some "0" }
    nodes := blankNodes
    editorData := none }

def linkDemoState : PreviewState :=
  { fields := { blankFields with linkLabel := some "More", linkUrl := some "/news/1" }
    nodes := blankNodes
    editorData := none }

def idleState : PreviewState :=
  { fields := blankFields, nodes := blankNodes, editorData := none }

/-- C1: the rendered summary HTML is the raw summary decoded and
script-stripped (then trimmed, with the placeholder on empty) before
injection; sanitizing `"<p>ok</p><script>alert(1)</script>"` yields
`"<p>ok</p>"` and that summary renders as `"<p>ok</p>"`; and the removal
applies to a script fragment anywhere in the input: after any text free
of `<script` occurrences, a `<script>` fragment with a line-break-free,
close-tag-free body is removed together with its tags. -/
theorem C1_summary_script_stripping :
    (∀ st : PreviewState,
      (updatePreview st).nodes.summaryHtml =
        (if summaryContent st ≠ "" then summaryContent st else defaultSummary) ∧
      summaryContent st = jsTrim (sanitizeHtml (decodeHtml (rawSummary st)))) ∧
    sanitizeHtml "<p>ok</p><script>alert(1)</script>" = "<p>ok</p>" ∧
    (updatePreview summaryDemoState).nodes.summaryHtml = "<p>ok</p>" ∧
    (∀ pre body post : String,
      ciContains scriptOpenChars pre.data = false →
      body.data.all (fun c => !isLineTerm c) = true →
      ciContains scriptCloseChars body.data = false →
      sanitizeHtml (pre ++ "<script>" ++ body ++ "</script>" ++ post) =
        pre ++ sanitizeHtml post) := by
  refine ⟨fun st => ⟨rfl, rfl⟩, by decide, by decide, sanitizeHtml_strips_script⟩

/-- C1 witness: the general removal conjunct applied at a concrete input,
hypotheses discharged by evaluation. -/
theorem C1_summary_script_stripping_witness :
    (ciContains scriptOpenChars ("<p>hi</p>" : String).data = false ∧
      (("alert(2)" : String).data.all fun c => !isLineTerm c) = true ∧
      ciContains scriptCloseChars ("alert(2)" : String).data = false) ∧
    sanitizeHtml ("<p>hi</p>" ++ "<script>" ++ "alert(2)" ++ "</script>" ++ "<p>bye</p>") =
      "<p>hi</p>" ++ sanitizeHtml "<p>bye</p>" :=
  ⟨⟨by decide, by decide, by decide⟩,
    C1_summary_script_stripping.2.2.2 "<p>hi</p>" "alert(2)" "<p>bye</p>"
      (by decide) (by decide) (by decide)⟩

/-- C2 counterexample: rendering twice with no intervening change is
observably different from rendering once.  With the rotation field
holding `"10.2"`, the first render draws `rotate(10.2deg)` and normalizes
the stored field to `"10"`; the second render then rewrites the CSS
transform to `rotate(10deg)` — an observable DOM diff on the second
call. -/
theorem C2_render_not_idempotent_counterexample :
    updatePreview (updatePreview renderTwiceState) ≠ updatePreview renderTwiceState ∧
    (updatePreview renderTwiceState).nodes.imageTransform = "scale(1) rotate(10.2deg)" ∧
    (updatePreview (updatePreview renderTwiceState)).nodes.imageTransform =
      "scale(1) rotate(10deg)" :=
  ⟨by decide, by decide, by decide⟩

/-- C2 (amended): the render is idempotent once the stored scale/rotation
field values are in the renderer's own normalized form — equivalently,
from the second call on no further DOM change occurs: a render whose
field normalization is a no-op is idempotent, and for every state the
third render equals the second. -/
theorem C2_render_idempotent_after_normalization :
    (∀ st : PreviewState, normFields st.fields = st.fields →
      updatePreview (updatePreview st) = updatePreview st) ∧
    (∀ st : PreviewState,
      updatePreview (updatePreview (updatePreview st)) =
        updatePreview (updatePreview st)) :=
  ⟨updatePreview_idem_of_normal, updatePreview_settles⟩

/-- C2 witness: a state with already-normalized fields, rendered twice. -/
theorem C2_render_idempotent_after_normalization_witness :
    normFields idleState.fields = idleState.fields ∧
    updatePreview (updatePreview idleState) = updatePreview idleState :=
  ⟨by decide, C2_render_idempotent_after_normalization.1 idleState (by decide)⟩

/-- C3: an upload completion is treated as success exactly when the HTTP
status is a success status AND the parsed body's `uploaded` flag equals 1
AND its `url` field is a non-empty string; on success the image field's
value becomes that URL and input and change events are dispatched on the
field; a network error is never a success. -/
theorem C3_upload_success_iff :
    (∀ (fv : String) (r : FetchResponse),
      ((processUploadResponse fv (.response r)).feedbackStatus = some "success" ↔
        respOk r = true ∧ (r.body.getD emptyUploadData).uploaded = some 1 ∧
          ∃ u, (r.body.getD emptyUploadData).url = some u ∧ u ≠ "") ∧
      (∀ u, respOk r = true → (r.body.getD emptyUploadData).uploaded = some 1 →
        (r.body.getD emptyUploadData).url = some u → u ≠ "" →
        (processUploadResponse fv (.response r)).fieldValue = u ∧
        (processUploadResponse fv (.response r)).inputDispatched = true ∧
        (processUploadResponse fv (.response r)).changeDispatched = true)) ∧
    (∀ fv : String,
      (processUploadResponse fv .networkError).feedbackStatus ≠ some "success") := by
  refine ⟨fun fv r => ⟨⟨?_, ?_⟩, ?_⟩, fun fv => by simp [processUploadResponse]⟩
  · intro hs
    by_cases hcond : respOk r = true ∧ (r.body.getD emptyUploadData).uploaded = some 1 ∧
        urlTruthy (r.body.getD emptyUploadData) = true
    · obtain ⟨h1, h2, h3⟩ := hcond
      refine ⟨h1, h2, ?_⟩
      unfold urlTruthy at h3
      cases hu : (r.body.getD emptyUploadData).url with
      | none => rw [hu] at h3; simp at h3
      | some u =>
        rw [hu] at h3
        simp only [ne_eq, decide_not, Bool.not_eq_true', decide_eq_false_iff_not] at h3
        exact ⟨u, rfl, h3⟩
    · exfalso
      have herr : (processUploadResponse fv (.response r)).feedbackStatus = some "error" := by
        simp only [processUploadResponse]
        rw [if_neg hcond]
      rw [herr] at hs
      exact absurd hs (by decide)
  · rintro ⟨h1, h2, u, hu, hne⟩
    have hcond : respOk r = true ∧ (r.body.getD emptyUploadData).uploaded = some 1 ∧
        urlTruthy (r.body.getD emptyUploadData) = true := by
      refine ⟨h1, h2, ?_⟩
      unfold urlTruthy
      rw [hu]
      simpa using hne
    simp only [processUploadResponse]
    rw [if_pos hcond]
  · intro u h1 h2 hu hne
    have hcond : respOk r = true ∧ (r.body.getD emptyUploadData).uploaded = some 1 ∧
        urlTruthy (r.body.getD emptyUploadData) = true := by
      refine ⟨h1, h2, ?_⟩
      unfold urlTruthy
      rw [hu]
      simpa using hne
    simp only [processUploadResponse]
    rw [if_pos hcond]
    refine ⟨?_, rfl, rfl⟩
    simp [hu]

def successResponse : FetchResponse :=
  ⟨200, some ⟨some 1, some "https://cdn/x.png", none⟩⟩

/-- C3 witness: a 200 response with `{uploaded: 1, url: "https://cdn/x.png"}`
commits the URL and dispatches both events. -/
theorem C3_upload_success_iff_witness :
    (respOk successResponse = true ∧
      (successResponse.body.getD emptyUploadData).uploaded = some 1 ∧
      (successResponse.body.getD emptyUploadData).url = some "https://cdn/x.png" ∧
      ("https://cdn/x.png" : String) ≠ "") ∧
    (processUploadResponse "old" (.response successResponse)).fieldValue = "https://cdn/x.png" ∧
    (processUploadResponse "old" (.response successResponse)).inputDispatched = true ∧
    (processUploadResponse "old" (.response successResponse)).changeDispatched = true :=
  ⟨⟨by decide, by decide, by decide, by decide⟩,
    (C3_upload_success_iff.1 "old" successResponse).2 "https://cdn/x.png"
      (by decide) (by decide) (by decide) (by decide)⟩

/-- C4: every failed completion leaves the field unchanged, clears the
busy state, and shows an error message preferring the server-supplied one
with the generic fallback otherwise (and the connection-error message on a
network exception); no branch issues another request; a 500 with no body
shows the generic fallback with the field unchanged. -/
theorem C4_upload_failure_atomic :
    (∀ (fv : String) (o : FetchOutcome),
      (processUploadResponse fv o).feedbackStatus ≠ some "success" →
      (processUploadResponse fv o).fieldValue = fv ∧
      (processUploadResponse fv o).feedbackStatus = some "error" ∧
      (∀ r, o = .response r →
        (processUploadResponse fv o).feedbackMessage =
          (serverMessage (r.body.getD emptyUploadData)).getD uploadFailMsg) ∧
      (o = .networkError →
        (processUploadResponse fv o).feedbackMessage = uploadConnErrorMsg) ∧
      (processUploadResponse fv o).busy = false ∧
      (processUploadResponse fv o).startsNewUpload = false) ∧
    (∀ fv : String,
      (processUploadResponse fv (.response ⟨500, none⟩)).fieldValue = fv ∧
      (processUploadResponse fv (.response ⟨500, none⟩)).feedbackMessage = uploadFailMsg) := by
  constructor
  · intro fv o hs
    cases o with
    | networkError =>
      refine ⟨rfl, rfl, ?_, fun _ => rfl, rfl, rfl⟩
      intro r hr
      exact absurd hr (by simp)
    | response r =>
      by_cases hcond : respOk r = true ∧ (r.body.getD emptyUploadData).uploaded = some 1 ∧
          urlTruthy (r.body.getD emptyUploadData) = true
      · exfalso
        apply hs
        simp only [processUploadResponse]
        rw [if_pos hcond]
      · have hred : processUploadResponse fv (.response r) =
            { fieldValue := fv, inputDispatched := false, changeDispatched := false
              feedbackStatus := some "error"
              feedbackMessage := (serverMessage (r.body.getD emptyUploadData)).getD uploadFailMsg
              busy := false, startsNewUpload := false } := by
          simp only [processUploadResponse]
          rw [if_neg hcond]
        rw [hred]
        refine ⟨rfl, rfl, ?_, ?_, rfl, rfl⟩
        · intro r' hr'
          have : r' = r := by injection hr' with h; exact h.symm
          rw [this]
        · intro hn
          exact absurd hn (by simp)
  · intro fv
    have hcond : ¬(respOk (⟨500, none⟩ : FetchResponse) = true ∧
        ((⟨500, none⟩ : FetchResponse).body.getD emptyUploadData).uploaded = some 1 ∧
        urlTruthy ((⟨500, none⟩ : FetchResponse).body.getD emptyUploadData) = true) := by
      decide
    constructor
    · simp only [processUploadResponse]
      rw [if_neg hcond]
    · simp only [processUploadResponse]
      rw [if_neg hcond]
      rfl

/-- C4 witness: a 500 response with no body, starting from field value
`"keep"`. -/
theorem C4_upload_failure_atomic_witness :
    ((processUploadResponse "keep" (.response ⟨500, none⟩)).feedbackStatus ≠ some "success") ∧
    (processUploadResponse "keep" (.response ⟨500, none⟩)).fieldValue = "keep" ∧
    (processUploadResponse "keep" (.response ⟨500, none⟩)).feedbackStatus = some "error" ∧
    (processUploadResponse "keep" (.response ⟨500, none⟩)).startsNewUpload = false := by
  have h := C4_upload_failure_atomic.1 "keep" (.response ⟨500, none⟩) (by decide)
  exact ⟨by decide, h.1, h.2.1, h.2.2.2.2.2⟩

/-- C5 counterexample: `"not a url###"` is not a parse failure — the URL
constructor resolves it as a relative reference against the page origin,
so the normalized href is the resolved absolute URL, not the raw string
passed through unchanged. -/
theorem C5_url_passthrough_counterexample :
    normalizeUrl "not a url###" = "https://example.org/not%20a%20url###" ∧
    normalizeUrl "not a url###" ≠ "not a url###" :=
  ⟨by decide, by decide⟩

/-- C5 (amended): whenever a link label is present the rendered href is
`normalizeUrl` of the trimmed link URL: the URL resolved against the page
origin when parsing succeeds (`/news/1` ↦ `https://example.org/news/1`),
the raw string on a parse failure (such as `"https://"`, whose host is
empty), and `"#"` for the empty string.  `"not a url###"` parses as a
relative reference and resolves to
`https://example.org/not%20a%20url###` instead of passing through. -/
theorem C5_link_url_normalization :
    (∀ st : PreviewState, trimmedField st.fields.linkLabel ≠ "" →
      (updatePreview st).nodes.linkHref = normalizeUrl (trimmedField st.fields.linkUrl)) ∧
    (∀ v : String, v ≠ "" → resolveUrl v pageOrigin = none → normalizeUrl v = v) ∧
    (∀ v u : String, v ≠ "" → resolveUrl v pageOrigin = some u → normalizeUrl v = u) ∧
    normalizeUrl "/news/1" = "https://example.org/news/1" ∧
    normalizeUrl "" = "#" ∧
    normalizeUrl "https://" = "https://" ∧
    (updatePreview linkDemoState).nodes.linkHref = "https://example.org/news/1" := by
  refine ⟨?_, ?_, ?_, by decide, by decide, by decide, by decide⟩
  · intro st h
    show (if trimmedField st.fields.linkLabel ≠ "" then
        normalizeUrl (trimmedField st.fields.linkUrl) else "#") = _
    rw [if_pos h]
  · intro v h hr
    unfold normalizeUrl
    rw [if_neg h, hr]
  · intro v u h hr
    unfold normalizeUrl
    rw [if_neg h, hr]

/-- C5 witness: the href conjunct at a concrete state and the passthrough
conjunct at the failing input `"https://"`. -/
theorem C5_link_url_normalization_witness :
    (trimmedField linkDemoState.fields.linkLabel ≠ "" ∧
      (updatePreview linkDemoState).nodes.linkHref =
        normalizeUrl (trimmedField linkDemoState.fields.linkUrl)) ∧
    (("https://" : String) ≠ "" ∧ resolveUrl "https://" pageOrigin = none ∧
      normalizeUrl "https://" = "https://") :=
  ⟨⟨by decide, C5_link_url_normalization.1 linkDemoState (by decide)⟩,
    by decide, by decide,
    C5_link_url_normalization.2.1 "https://" (by decide) (by decide)⟩

/-- C6: after any scale or rotation control input event the stored scale
field holds a clamped two-decimal value in `[0.50, 2.00]` and the stored
rotation an integer in `[-180, 180]`; a control value of `250` normalizes
the stored scale to `"2.00"` with the CSS transform `scale(2) rotate(0deg)`,
and `-400` normalizes the stored rotation to `"-180"`. -/
theorem C6_transform_state_invariant :
    (∀ (cv : String) (st : PreviewState) (v : String),
      (scaleInputHandler cv st).fields.imageScale = some v → scaleNormalized v) ∧
    (∀ (cv : String) (st : PreviewState) (v : String),
      (scaleInputHandler cv st).fields.imageRotation = some v → rotationNormalized v) ∧
    (∀ (cv : String) (st : PreviewState) (v : String),
      (rotationInputHandler cv st).fields.imageScale = some v → scaleNormalized v) ∧
    (∀ (cv : String) (st : PreviewState) (v : String),
      (rotationInputHandler cv st).fields.imageRotation = some v → rotationNormalized v) ∧
    (scaleInputHandler "250" scaleDemoState).fields.imageScale = some "2.00" ∧
    (scaleInputHandler "250" scaleDemoState).nodes.imageTransform = "scale(2) rotate(0deg)" ∧
    (rotationInputHandler "-400" scaleDemoState).fields.imageRotation = some "-180" := by
  refine ⟨?_, ?_, ?_, ?_, by decide, by decide, by decide⟩ <;>
    intro cv st v hv <;>
    first
    | exact updatePreview_scale_normalized _ v hv
    | exact updatePreview_rotation_normalized _ v hv

/-- C6 witness: the invariant conjuncts applied after concrete control
events. -/
theorem C6_transform_state_invariant_witness :
    ((scaleInputHandler "137" scaleDemoState).fields.imageScale = some "1.37" ∧
      scaleNormalized "1.37") ∧
    ((rotationInputHandler "7" scaleDemoState).fields.imageRotation = some "7" ∧
      rotationNormalized "7") :=
  ⟨⟨by decide, C6_transform_state_invariant.1 "137" scaleDemoState "1.37" (by decide)⟩,
    ⟨by decide, C6_transform_state_invariant.2.2.2.1 "7" scaleDemoState "7" (by decide)⟩⟩

/-- C7: the value a plain-text editable preview node writes back into its
field is the node's text with NBSP replaced by spaces, whitespace runs
collapsed, and ends trimmed; editing the title preview to
`"  New   Title  "` yields `"New Title"` and dispatches input and change
events. -/
theorem C7_plain_text_reverse_sync :
    (∀ (multiline : Bool) (elemContent fieldValue : String) (editor : Option String),
      (syncFieldFromPreview false multiline elemContent fieldValue editor).fieldValue =
        normaliseValue false multiline elemContent) ∧
    (∀ elemContent : String,
      normaliseValue false false elemContent =
        jsTrim (collapseWs (String.mk (elemContent.data.map
          fun c => if c = ' ' then ' ' else c)))) ∧
    normaliseValue false false "  New   Title  " = "New Title" ∧
    (syncFieldFromPreview false false "  New   Title  " "Old" none).fieldValue = "New Title" ∧
    (syncFieldFromPreview false false "  New   Title  " "Old" none).inputDispatched = true ∧
    (syncFieldFromPreview false false "  New   Title  " "Old" none).changeDispatched = true := by
  refine ⟨?_, ?_, by decide, by decide, by decide, by decide⟩
  · intro multiline elemContent fieldValue editor
    by_cases h : fieldValue = normaliseValue false multiline elemContent <;>
      simp [syncFieldFromPreview, h]
  · intro elemContent
    by_cases h : elemContent = ""
    · subst h
      decide
    · unfold normaliseValue
      rw [if_neg h]
      simp

/-- C8 counterexample: on the rich HTML summary path with an editor
instance bound, the reverse sync dispatches no input or change event on
the field, neither when the normalized value differs from the editor's
current content nor when it is unchanged. -/
theorem C8_editor_path_counterexample :
    (syncFieldFromPreview true true "<p>b</p>" "" (some "<p>a</p>")).inputDispatched = false ∧
    (syncFieldFromPreview true true "<p>b</p>" "" (some "<p>a</p>")).changeDispatched = false ∧
    normaliseValue true true "<p>b</p>" ≠ jsTrim (sanitizeHtml "<p>a</p>") ∧
    (syncFieldFromPreview true true "<p>a</p>" "" (some "<p>a</p>")).inputDispatched = false :=
  ⟨by decide, by decide, by decide, by decide⟩

/-- C8 (amended): on every reverse-sync path that writes the field — all
plain-text paths and the rich HTML path without a bound editor — a change
in the normalized value dispatches input and change, and an unchanged
value still dispatches input; on the rich HTML path with a bound editor no
field notification is dispatched at all: the sync pushes the normalized
HTML into the editor (marking the one-shot syncing flag) and re-renders
directly. -/
theorem C8_sync_notifications :
    (∀ (multiline : Bool) (elemContent fieldValue : String) (editor : Option String),
      (normaliseValue false multiline elemContent ≠ fieldValue →
        (syncFieldFromPreview false multiline elemContent fieldValue editor).inputDispatched = true ∧
        (syncFieldFromPreview false multiline elemContent fieldValue editor).changeDispatched = true) ∧
      (normaliseValue false multiline elemContent = fieldValue →
        (syncFieldFromPreview false multiline elemContent fieldValue editor).inputDispatched = true)) ∧
    (∀ (multiline : Bool) (elemContent fieldValue : String),
      (normaliseValue true multiline elemContent ≠ jsTrim (sanitizeHtml fieldValue) →
        (syncFieldFromPreview true multiline elemContent fieldValue none).inputDispatched = true ∧
        (syncFieldFromPreview true multiline elemContent fieldValue none).changeDispatched = true) ∧
      (normaliseValue true multiline elemContent = jsTrim (sanitizeHtml fieldValue) →
        (syncFieldFromPreview true multiline elemContent fieldValue none).inputDispatched = true)) ∧
    (∀ (multiline : Bool) (elemContent fieldValue data : String),
      (syncFieldFromPreview true multiline elemContent fieldValue (some data)).inputDispatched = false ∧
      (syncFieldFromPreview true multiline elemContent fieldValue (some data)).changeDispatched = false ∧
      (syncFieldFromPreview true multiline elemContent fieldValue (some data)).syncingSet = true ∧
      (syncFieldFromPreview true multiline elemContent fieldValue (some data)).rerendered = true ∧
      (jsTrim (sanitizeHtml data) ≠ normaliseValue true multiline elemContent →
        (syncFieldFromPreview true multiline elemContent fieldValue (some data)).editorData =
          some (normaliseValue true multiline elemContent))) := by
  refine ⟨?_, ?_, ?_⟩
  · intro multiline elemContent fieldValue editor
    constructor
    · intro hne
      have h : ¬(fieldValue = normaliseValue false multiline elemContent) :=
        fun heq => hne heq.symm
      simp [syncFieldFromPreview, h]
    · intro heq
      by_cases h : fieldValue = normaliseValue false multiline elemContent <;>
        simp [syncFieldFromPreview, h]
  · intro multiline elemContent fieldValue
    constructor
    · intro hne
      have h : ¬(jsTrim (sanitizeHtml fieldValue) = normaliseValue true multiline elemContent) :=
        fun heq => hne heq.symm
      simp [syncFieldFromPreview, h]
    · intro heq
      by_cases h : jsTrim (sanitizeHtml fieldValue) = normaliseValue true multiline elemContent <;>
        simp [syncFieldFromPreview, h]
  · intro multiline elemContent fieldValue data
    by_cases h : jsTrim (sanitizeHtml data) = normaliseValue true multiline elemContent <;>
      simp [syncFieldFromPreview, h]

/-- C8 witness: the plain path at a changed value dispatches both events;
the editor path marks the syncing flag. -/
theorem C8_sync_notifications_witness :
    (normaliseValue false false " X " ≠ "Old" ∧
      (syncFieldFromPreview false false " X " "Old" none).inputDispatched = true ∧
      (syncFieldFromPreview false false " X " "Old" none).changeDispatched = true) ∧
    (syncFieldFromPreview true true "<p>a</p>" "" (some "<p>a</p>")).syncingSet = true :=
  ⟨⟨by decide,
      ((C8_sync_notifications.1 false " X " "Old" none).1 (by decide)).1,
      ((C8_sync_notifications.1 false " X " "Old" none).1 (by decide)).2⟩,
    (C8_sync_notifications.2.2 true "<p>a</p>" "" "<p>a</p>").2.2.1⟩

/-- C9: with neither a per-field endpoint attribute nor a global default
configured, binding the upload controller immediately writes the
configuration-failure feedback, still marks the field bound (the page
keeps working), attaches no upload entry point, and no event sequence can
ever reach the Uploading state. -/
theorem C9_missing_endpoint_never_uploads :
    ∀ fieldEndpoint globalEndpoint : Option String,
      getUploadEndpoint fieldEndpoint globalEndpoint = none →
      (setupImageUpload fieldEndpoint globalEndpoint).bound = true ∧
      (setupImageUpload fieldEndpoint globalEndpoint).feedbackMessage =
        some configUnavailableMsg ∧
      (setupImageUpload fieldEndpoint globalEndpoint).feedbackStatus = some "error" ∧
      (setupImageUpload fieldEndpoint globalEndpoint).uploadEnabled = false ∧
      ∀ events : List UploadEvent,
        reachesUploading (setupImageUpload fieldEndpoint globalEndpoint) events = false := by
  intro fe ge h
  have hs : setupImageUpload fe ge =
      ⟨true, some configUnavailableMsg, some "error", false⟩ := by
    unfold setupImageUpload
    rw [h]
  rw [hs]
  exact ⟨rfl, rfl, rfl, rfl, reachesUploading_disabled _ rfl⟩

/-- C9 witness: no endpoint configured anywhere; a drop followed by a file
pick still never uploads. -/
theorem C9_missing_endpoint_never_uploads_witness :
    getUploadEndpoint none none = none ∧
    (setupImageUpload none none).feedbackMessage = some configUnavailableMsg ∧
    reachesUploading (setupImageUpload none none)
      [UploadEvent.dropWithFiles, UploadEvent.filePicked] = false :=
  ⟨by decide,
    (C9_missing_endpoint_never_uploads none none (by decide)).2.1,
    (C9_missing_endpoint_never_uploads none none (by decide)).2.2.2.2
      [UploadEvent.dropWithFiles, UploadEvent.filePicked]⟩

/-- C10: on every render write to an editable preview node, a node that is
the focused element with the syncing flag clear keeps its displayed
content (only the placeholder flag is updated and the syncing flag stays
clear), while a node with the syncing flag set receives the display value
and has the flag cleared; an unfocused node also receives the display
value. -/
theorem C10_focused_node_not_clobbered :
    ∀ (el : ElemState) (isActive : Bool) (value placeholder : String),
      (isActive = true → el.syncing = false →
        (setEditableContent el isActive value placeholder).content = el.content ∧
        ((setEditableContent el isActive value placeholder).placeholderFlag = true ↔
          value = "") ∧
        (setEditableContent el isActive value placeholder).syncing = false) ∧
      (el.syncing = true →
        (setEditableContent el isActive value placeholder).content =
          (if value ≠ "" then value else placeholder) ∧
        (setEditableContent el isActive value placeholder).syncing = false) ∧
      (isActive = false →
        (setEditableContent el isActive value placeholder).content =
          (if value ≠ "" then value else placeholder)) := by
  intro el isActive value placeholder
  refine ⟨?_, ?_, ?_⟩
  · intro ha hsyn
    unfold setEditableContent
    simp [ha, hsyn]
  · intro hsyn
    unfold setEditableContent
    simp [hsyn]
  · intro ha
    unfold setEditableContent
    simp [ha]

/-- C10 witness: a focused, non-syncing node keeps its text under a
render; a syncing node receives the new content and drops the flag. -/
theorem C10_focused_node_not_clobbered_witness :
    ((setEditableContent ⟨"typing", false, false⟩ true "newvalue" "ph").content = "typing" ∧
      (setEditableContent ⟨"typing", false, false⟩ true "newvalue" "ph").syncing = false) ∧
    ((setEditableContent ⟨"old", false, true⟩ true "newvalue" "ph").content = "newvalue" ∧
      (setEditableContent ⟨"old", false, true⟩ true "newvalue" "ph").syncing = false) :=
  ⟨⟨((C10_focused_node_not_clobbered ⟨"typing", false, false⟩ true "newvalue" "ph").1
        rfl rfl).1,
      ((C10_focused_node_not_clobbered ⟨"typing", false, false⟩ true "newvalue" "ph").1
        rfl rfl).2.2⟩,
    ⟨((C10_focused_node_not_clobbered ⟨"old", false, true⟩ true "newvalue" "ph").2.1 rfl).1,
      ((C10_focused_node_not_clobbered ⟨"old", false, true⟩ true "newvalue" "ph").2.1 rfl).2⟩⟩
